import Mathlib

/-!
# Verification of the fundamentals-yf valuation core

A shallow embedding of the statement-normalization and valuation-metrics
engine of the repository (`src/index.ts`): the point-in-time price resolver
`priceOn`, the currency normalizer `convertCurrencyInStatements`, the
trailing-window aggregator `calculateTrailingStatistics`, the TTM fallback
selector `getTTMStatistics`, the pure metric calculator
`calculateValuationMetrics`, and the growth calculator `calculateGrowth`.

Modelling conventions:
* Calendar dates are day indices (`Nat`); every comparison in the source is
  performed at day granularity (`startOf("day")`, `hasSame(_, "day")`).
* A JavaScript number is a `JsNum`: an exact rational, `NaN`, or a signed
  infinity.  A possibly-`undefined` number is an `Option JsNum`.
* Thrown exceptions are modelled with `Except CalcError`.
-/

/-- A JavaScript number: finite (exact rational), `NaN`, `+Infinity` or
`-Infinity`.  Provider data is always finite; `NaN` and the infinities arise
from arithmetic on `undefined` and from division by zero. -/
inductive JsNum where
  | num (q : ℚ)
  | nan
  | posInf
  | negInf
deriving DecidableEq, Repr

namespace JsNum

/-- JavaScript addition. -/
def add : JsNum → JsNum → JsNum
  | num a, num b => num (a + b)
  | nan, _ => nan
  | _, nan => nan
  | posInf, negInf => nan
  | negInf, posInf => nan
  | posInf, _ => posInf
  | _, posInf => posInf
  | negInf, _ => negInf
  | _, negInf => negInf

/-- JavaScript negation. -/
def neg : JsNum → JsNum
  | num a => num (-a)
  | nan => nan
  | posInf => negInf
  | negInf => posInf

/-- JavaScript subtraction. -/
def sub (a b : JsNum) : JsNum := add a (neg b)

/-- JavaScript multiplication (`0 * Infinity = NaN`). -/
def mul : JsNum → JsNum → JsNum
  | num a, num b => num (a * b)
  | nan, _ => nan
  | _, nan => nan
  | num a, posInf => if a = 0 then nan else if 0 < a then posInf else negInf
  | num a, negInf => if a = 0 then nan else if 0 < a then negInf else posInf
  | posInf, num b => if b = 0 then nan else if 0 < b then posInf else negInf
  | negInf, num b => if b = 0 then nan else if 0 < b then negInf else posInf
  | posInf, posInf => posInf
  | posInf, negInf => negInf
  | negInf, posInf => negInf
  | negInf, negInf => posInf

/-- JavaScript division (`x / 0` is a signed infinity for `x ≠ 0`,
`0 / 0 = NaN`, `x / ±Infinity = 0` for finite `x`). -/
def div : JsNum → JsNum → JsNum
  | nan, _ => nan
  | _, nan => nan
  | num a, num b =>
      if b = 0 then (if a = 0 then nan else if 0 < a then posInf else negInf)
      else num (a / b)
  | num _, posInf => num 0
  | num _, negInf => num 0
  | posInf, num b => if 0 ≤ b then posInf else negInf
  | negInf, num b => if 0 ≤ b then negInf else posInf
  | posInf, posInf => nan
  | posInf, negInf => nan
  | negInf, posInf => nan
  | negInf, negInf => nan

/-- JavaScript truthiness of a number: `0` and `NaN` are falsy. -/
def truthy : JsNum → Bool
  | num q => q ≠ 0
  | nan => false
  | posInf => true
  | negInf => true

/-- `true` iff the number is finite (neither `NaN` nor infinite). -/
def isFinite : JsNum → Bool
  | num _ => true
  | _ => false

/-- JavaScript `x <= 0` (false for `NaN`). -/
def le0 : JsNum → Bool
  | num q => q ≤ 0
  | nan => false
  | posInf => false
  | negInf => true

end JsNum

/-- Coerce a possibly-`undefined` number into arithmetic: `undefined`
behaves as `NaN`. -/
def toJs : Option JsNum → JsNum
  | none => JsNum.nan
  | some v => v

/-- JavaScript truthiness of a possibly-`undefined` number. -/
def truthyO : Option JsNum → Bool
  | none => false
  | some v => v.truthy

/-- JavaScript nullish coalescing `a ?? b`: `b` only when `a` is
`undefined` (a present `0` is kept). -/
def nullishOr (a b : Option JsNum) : Option JsNum :=
  match a with
  | some v => some v
  | none => b

/-- JavaScript logical or `a || b` on numbers: `b` when `a` is falsy
(`undefined`, `0` or `NaN`). -/
def jsOr (a b : Option JsNum) : Option JsNum :=
  if truthyO a then a else b

/-- Lodash `_.sum` / `_.sumBy`: `undefined` entries are skipped; the result
is `undefined` when no entry is defined. -/
def lodashSum (l : List (Option JsNum)) : Option JsNum :=
  l.foldl
    (fun acc v =>
      match v with
      | none => acc
      | some x =>
        match acc with
        | none => some x
        | some a => some (JsNum.add a x))
    none

/-- One daily close of a price or FX-rate series (`ChartResultArrayQuote`
restricted to the fields the core reads). -/
structure PricePoint where
  date : ℕ
  close : ℚ
deriving DecidableEq, Repr

/-- The two exceptions the core throws: `DateOutOfRangeError` from the price
resolver and `MissingFieldError` from the trailing aggregator. -/
inductive CalcError where
  | dateOutOfRange
  | missingField (msg : String)
deriving DecidableEq, Repr

/-- Lodash `_.minBy(prices, p => p.date)`: the first element with minimal
date, `none` on the empty list. -/
def minByDate (prices : List PricePoint) : Option PricePoint :=
  prices.foldl
    (fun acc p =>
      match acc with
      | none => some p
      | some m => if p.date < m.date then some p else some m)
    none

/-- The filter-sort-head pipeline of `priceOn`: among the points dated on or
before `date`, the first one carrying the maximal date (a stable descending
sort puts it first), `none` when no point qualifies. -/
def latestOnOrBefore (date : ℕ) (prices : List PricePoint) : Option PricePoint :=
  (prices.filter (fun p => p.date ≤ date)).foldl
    (fun best p =>
      match best with
      | none => some p
      | some b => if b.date < p.date then some p else some b)
    none

/-- `priceOn(date, prices)`: throws `DateOutOfRangeError` when the series is
non-empty and `date` precedes its earliest date; otherwise returns the close
of the most recent point dated on or before `date` (`undefined` — `ok none`
— when the series is empty, since the guard is skipped and the filtered list
is empty). -/
def priceOn (date : ℕ) (prices : List PricePoint) : Except CalcError (Option ℚ) :=
  match minByDate prices with
  | some earliest =>
      if date < earliest.date then .error .dateOutOfRange
      else .ok ((latestOnOrBefore date prices).map (·.close))
  | none => .ok ((latestOnOrBefore date prices).map (·.close))

/-- One reported financial statement (`StatementPayload`), restricted to the
fields the core reads or classifies.  Numeric fields are possibly
`undefined`; `date` is the period-end day, `periodType` the reporting
period kind. -/
structure Statement where
  date : ℕ
  periodType : String
  basicAverageShares : Option JsNum
  dilutedAverageShares : Option JsNum
  ordinarySharesNumber : Option JsNum
  shareIssued : Option JsNum
  taxRateForCalcs : Option JsNum
  netIncome : Option JsNum
  freeCashFlow : Option JsNum
  stockBasedCompensation : Option JsNum
  totalRevenue : Option JsNum
  operatingIncome : Option JsNum
  totalDebt : Option JsNum
  cashAndCashEquivalents : Option JsNum
  cashCashEquivalentsAndShortTermInvestments : Option JsNum
  basicEPS : Option JsNum
deriving DecidableEq, Repr

/-- The ordering key of `_.sortBy(s => s.date)`. -/
def dateLE (a b : Statement) : Prop := a.date ≤ b.date

instance : DecidableRel dateLE := fun a b => inferInstanceAs (Decidable (a.date ≤ b.date))

instance : IsTotal Statement dateLE := ⟨fun a b => Nat.le_total a.date b.date⟩

instance : IsTrans Statement dateLE := ⟨fun _ _ _ => Nat.le_trans⟩

/-- Lodash `_.sortBy(s => s.date)`: a stable sort, ascending by date. -/
def sortByDate (l : List Statement) : List Statement :=
  l.insertionSort dateLE

/-- Lodash `_.takeRight(n)`: the last `n` elements (the whole list when it is
shorter than `n`). -/
def takeRight (n : ℕ) (l : List α) : List α :=
  l.drop (l.length - n)

/-- One step of `convertCurrencyInStatements`: multiply every numeric field
whose name is outside the non-currency set by the resolved FX rate
(`undefined` fields are not numbers and pass through; an `undefined` rate
multiplies into `NaN`). -/
def convertOneStatement (rate : Option ℚ) (statement : Statement) : Statement :=
  let r := toJs (rate.map JsNum.num)
  { statement with
    netIncome := statement.netIncome.map (JsNum.mul · r)
    freeCashFlow := statement.freeCashFlow.map (JsNum.mul · r)
    stockBasedCompensation := statement.stockBasedCompensation.map (JsNum.mul · r)
    totalRevenue := statement.totalRevenue.map (JsNum.mul · r)
    operatingIncome := statement.operatingIncome.map (JsNum.mul · r)
    totalDebt := statement.totalDebt.map (JsNum.mul · r)
    cashAndCashEquivalents := statement.cashAndCashEquivalents.map (JsNum.mul · r)
    cashCashEquivalentsAndShortTermInvestments :=
      statement.cashCashEquivalentsAndShortTermInvestments.map (JsNum.mul · r)
    basicEPS := statement.basicEPS.map (JsNum.mul · r) }

/-- `convertCurrencyInStatements(statements, from, to)` after the FX series
for the pair has been fetched: each statement's monetary fields are scaled by
`priceOn(statement.date, rates)`; a `DateOutOfRangeError` raised for any
statement aborts the whole conversion. -/
def convertCurrencyInStatements :
    List Statement → List PricePoint → Except CalcError (List Statement)
  | [], _ => .ok []
  | s :: rest, rates =>
    match priceOn s.date rates with
    | .error e => .error e
    | .ok rate =>
      match convertCurrencyInStatements rest rates with
      | .error e => .error e
      | .ok tail => .ok (convertOneStatement rate s :: tail)

/-- The argument record of `calculateValuationMetrics`.  The TypeScript
interface declares plain `number` fields, but at runtime the callers can pass
`undefined` (lodash sums of all-absent columns, a `priceOn` miss), so every
numeric field is possibly `undefined`. -/
structure StatisticsInput where
  date : ℕ
  close : Option JsNum
  sharesOutstanding : Option JsNum
  dilutedSharesOutstanding : Option JsNum
  netIncome : Option JsNum
  freeCashFlow : Option JsNum
  stockBasedCompensation : Option JsNum
  eps : Option JsNum
  totalCash : Option JsNum
  totalDebt : Option JsNum
  totalRevenue : Option JsNum
  operatingIncome : Option JsNum
deriving DecidableEq, Repr

/-- The record returned by `calculateValuationMetrics`.  `marketCap` and
`dilutedMarketCap` are always computed; the ratio metrics are `null`
(`none`) when their guard is falsy. -/
structure ValuationMetrics where
  date : ℕ
  close : Option JsNum
  sharesOutstanding : Option JsNum
  dilutedSharesOutstanding : Option JsNum
  marketCap : JsNum
  dilutedMarketCap : JsNum
  netIncome : Option JsNum
  freeCashFlow : Option JsNum
  stockBasedCompensation : Option JsNum
  eps : Option JsNum
  pe : Option JsNum
  fcfYield : Option JsNum
  fcfYieldAdjusted : Option JsNum
  fcfPerShare : Option JsNum
  fcfPerShareAdjusted : Option JsNum
  totalCash : Option JsNum
  totalDebt : Option JsNum
  totalRevenue : Option JsNum
  operatingIncome : Option JsNum
deriving DecidableEq, Repr

/-- `calculateValuationMetrics`: the pure metric calculator.  Each ternary
`x ? e : null` becomes an `if truthyO x` guard. -/
def calculateValuationMetrics (input : StatisticsInput) : ValuationMetrics :=
  let marketCap := JsNum.mul (toJs input.close) (toJs input.sharesOutstanding)
  let dilutedMarketCap := JsNum.mul (toJs input.close) (toJs input.dilutedSharesOutstanding)
  { date := input.date
    close := input.close
    sharesOutstanding := input.sharesOutstanding
    dilutedSharesOutstanding := input.dilutedSharesOutstanding
    marketCap := marketCap
    dilutedMarketCap := dilutedMarketCap
    netIncome := input.netIncome
    freeCashFlow := input.freeCashFlow
    stockBasedCompensation := input.stockBasedCompensation
    eps := input.eps
    pe :=
      if truthyO input.eps then some (JsNum.div (toJs input.close) (toJs input.eps)) else none
    fcfYield :=
      if truthyO input.freeCashFlow then some (JsNum.div (toJs input.freeCashFlow) marketCap)
      else none
    fcfYieldAdjusted :=
      if truthyO input.freeCashFlow && truthyO input.stockBasedCompensation then
        some (JsNum.div (JsNum.sub (toJs input.freeCashFlow) (toJs input.stockBasedCompensation))
          dilutedMarketCap)
      else none
    fcfPerShare :=
      if truthyO input.freeCashFlow then
        some (JsNum.div (toJs input.freeCashFlow) (toJs input.sharesOutstanding))
      else none
    fcfPerShareAdjusted :=
      if truthyO input.freeCashFlow && truthyO input.stockBasedCompensation then
        some (JsNum.div (JsNum.sub (toJs input.freeCashFlow) (toJs input.stockBasedCompensation))
          (toJs input.dilutedSharesOutstanding))
      else none
    totalCash := input.totalCash
    totalDebt := input.totalDebt
    totalRevenue := input.totalRevenue
    operatingIncome := input.operatingIncome }

/-- `calculateTrailingStatistics`: `null` on fewer than 4 quarterly
statements; otherwise aggregate the last 4 (after a stable ascending sort by
date) and delegate to `calculateValuationMetrics`.  The shares-outstanding
resolution is nullish (`??`) and a falsy result throws `MissingFieldError`;
`priceOn` may throw `DateOutOfRangeError`. -/
def calculateTrailingStatistics (allStatements : List Statement)
    (prices : List PricePoint) : Except CalcError (Option ValuationMetrics) :=
  if allStatements.length < 4 then .ok none
  else
    let statements := takeRight 4 (sortByDate allStatements)
    match statements.getLast? with
    | none => .ok none -- unreachable: `statements` has exactly 4 elements
    | some lastStatement =>
      let sharesOutstanding :=
        nullishOr lastStatement.basicAverageShares lastStatement.ordinarySharesNumber
      if !truthyO sharesOutstanding then
        .error (.missingField "Shares outstanding not found")
      else
        let netIncome := lodashSum (statements.map (·.netIncome))
        let freeCashFlow := lodashSum (statements.map (·.freeCashFlow))
        let stockBasedCompensation := lodashSum (statements.map (·.stockBasedCompensation))
        let totalRevenue := lodashSum (statements.map (·.totalRevenue))
        let operatingIncome := lodashSum (statements.map (·.operatingIncome))
        let eps := lodashSum (statements.map (fun s =>
          some (if truthyO s.netIncome && truthyO sharesOutstanding then
            JsNum.div (toJs s.netIncome) (toJs sharesOutstanding)
          else JsNum.num 0)))
        let date := lastStatement.date
        match priceOn date prices with
        | .error e => .error e
        | .ok close =>
          .ok (some (calculateValuationMetrics {
            date := date
            close := close.map JsNum.num
            sharesOutstanding := sharesOutstanding
            dilutedSharesOutstanding := jsOr lastStatement.dilutedAverageShares sharesOutstanding
            netIncome := netIncome
            freeCashFlow := freeCashFlow
            stockBasedCompensation := stockBasedCompensation
            eps := eps
            totalCash := jsOr lastStatement.cashCashEquivalentsAndShortTermInvestments
              lastStatement.cashAndCashEquivalents
            totalDebt := lastStatement.totalDebt
            totalRevenue := totalRevenue
            operatingIncome := operatingIncome }))

/-- The post-fetch body of `getTTMStatistics`: given the (possibly
currency-converted) trailing statement series and the price series, return
`null` on an empty series, resolve the latest-dated statement, look up its
close (which may throw), and return `null` when the falsy-or shares
resolution, the net income or the free cash flow is falsy; otherwise build
the record from that single statement, using its reported `basicEPS`
directly. -/
def getTTMStatistics (ttmStatements : List Statement) (prices : List PricePoint) :
    Except CalcError (Option ValuationMetrics) :=
  if ttmStatements.length = 0 then .ok none
  else
    match (sortByDate ttmStatements).getLast? with
    | none => .ok none -- unreachable: the series is non-empty
    | some statement =>
      match priceOn statement.date prices with
      | .error e => .error e
      | .ok close =>
        let sharesOutstanding := jsOr statement.basicAverageShares statement.ordinarySharesNumber
        if !(truthyO sharesOutstanding && truthyO statement.netIncome &&
            truthyO statement.freeCashFlow) then
          .ok none
        else
          .ok (some (calculateValuationMetrics {
            date := statement.date
            close := close.map JsNum.num
            sharesOutstanding := sharesOutstanding
            dilutedSharesOutstanding := jsOr statement.dilutedAverageShares sharesOutstanding
            netIncome := statement.netIncome
            freeCashFlow := statement.freeCashFlow
            stockBasedCompensation := jsOr statement.stockBasedCompensation (some (JsNum.num 0))
            eps := statement.basicEPS
            totalCash := jsOr statement.cashCashEquivalentsAndShortTermInvestments
              statement.cashAndCashEquivalents
            totalDebt := statement.totalDebt
            totalRevenue := statement.totalRevenue
            operatingIncome := statement.operatingIncome }))

/-- The value `Math.pow(end/start, 1/intervals) - 1` of a growth metric,
kept symbolically: the source evaluates a real-valued power, which the
embedding records by its three determining arguments. -/
structure GrowthRate where
  startVal : JsNum
  endVal : JsNum
  intervals : ℕ
deriving DecidableEq, Repr

/-- The record returned by `calculateGrowth`: one optional rate per metric. -/
structure GrowthResult where
  revenue : Option GrowthRate
  earnings : Option GrowthRate
deriving DecidableEq, Repr

/-- `calculateGrowth`: `null` on fewer than 4 periods; otherwise, over the
last 4 after a stable ascending sort by date, each metric's rate is `null`
when `!start || !end || start <= 0 || end <= 0` holds for its endpoints. -/
def calculateGrowth (statementsInput : List Statement) : Option GrowthResult :=
  if statementsInput.length < 4 then none
  else
    let statements := takeRight 4 (sortByDate statementsInput)
    match statements.head?, statements.getLast? with
    | some firstStatement, some lastStatement =>
      let intervals := statements.length - 1
      let revenueGrowth :=
        let start := firstStatement.totalRevenue
        let stop := lastStatement.totalRevenue
        if !truthyO start || !truthyO stop ||
            (toJs start).le0 || (toJs stop).le0 then none
        else some (⟨toJs start, toJs stop, intervals⟩ : GrowthRate)
      let earningsGrowth :=
        let start := firstStatement.netIncome
        let stop := lastStatement.netIncome
        if !truthyO start || !truthyO stop ||
            (toJs start).le0 || (toJs stop).le0 then none
        else some (⟨toJs start, toJs stop, intervals⟩ : GrowthRate)
      some { revenue := revenueGrowth, earnings := earningsGrowth }
    | _, _ => none -- unreachable guard `!firstStatement || !lastStatement`

/-! ## Helper lemmas -/

theorem minByDate_eq_none (prices : List PricePoint) :
    minByDate prices = none ↔ prices = [] := by
  constructor
  · intro h
    cases prices with
    | nil => rfl
    | cons p t =>
      exfalso
      have aux : ∀ (l : List PricePoint) (m : PricePoint),
          l.foldl (fun acc p =>
            match acc with
            | none => some p
            | some m => if p.date < m.date then some p else some m) (some m) ≠ none := by
        intro l
        induction l with
        | nil => intro m h'; exact Option.noConfusion h'
        | cons q t ih =>
          intro m
          simp only [List.foldl_cons]
          split <;> apply ih
      exact aux t p h
  · intro h; subst h; rfl

theorem minByDate_spec (prices : List PricePoint) (m : PricePoint)
    (h : minByDate prices = some m) : m ∈ prices ∧ ∀ p ∈ prices, m.date ≤ p.date := by
  have aux : ∀ (l : List PricePoint) (a r : PricePoint),
      l.foldl (fun acc p =>
        match acc with
        | none => some p
        | some m => if p.date < m.date then some p else some m) (some a) = some r →
      (r = a ∨ r ∈ l) ∧ r.date ≤ a.date ∧ ∀ p ∈ l, r.date ≤ p.date := by
    intro l
    induction l with
    | nil =>
      intro a r h'
      cases h'
      exact ⟨Or.inl rfl, le_refl _, by simp⟩
    | cons q t ih =>
      intro a r h'
      simp only [List.foldl_cons] at h'
      by_cases hq : q.date < a.date
      · rw [if_pos hq] at h'
        obtain ⟨hmem, hle, hall⟩ := ih q r h'
        refine ⟨?_, ?_, ?_⟩
        · rcases hmem with rfl | hm
          · exact Or.inr (List.mem_cons_self _ _)
          · exact Or.inr (List.mem_cons_of_mem _ hm)
        · exact le_trans hle (le_of_lt hq)
        · intro p hp
          rcases List.mem_cons.mp hp with rfl | hp'
          · exact hle
          · exact hall p hp'
      · rw [if_neg hq] at h'
        obtain ⟨hmem, hle, hall⟩ := ih a r h'
        refine ⟨?_, hle, ?_⟩
        · rcases hmem with rfl | hm
          · exact Or.inl rfl
          · exact Or.inr (List.mem_cons_of_mem _ hm)
        · intro p hp
          rcases List.mem_cons.mp hp with rfl | hp'
          · exact le_trans hle (le_of_not_lt hq)
          · exact hall p hp'
  cases prices with
  | nil => exact Option.noConfusion h
  | cons p t =>
    unfold minByDate at h
    simp only [List.foldl_cons] at h
    obtain ⟨hmem, hle, hall⟩ := aux t p m h
    refine ⟨?_, ?_⟩
    · rcases hmem with hm | hm
      · rw [hm]; exact List.mem_cons_self _ _
      · exact List.mem_cons_of_mem _ hm
    · intro x hx
      rcases List.mem_cons.mp hx with hx' | hx'
      · rw [hx']; exact hle
      · exact hall x hx'

theorem latestOnOrBefore_spec (date : ℕ) (prices : List PricePoint)
    (p0 : PricePoint) (h0 : p0 ∈ prices) (hd : p0.date ≤ date) :
    ∃ b, latestOnOrBefore date prices = some b ∧ b ∈ prices ∧ b.date ≤ date ∧
      ∀ q ∈ prices, q.date ≤ date → q.date ≤ b.date := by
  have aux : ∀ (l : List PricePoint) (a : PricePoint),
      ∃ b, l.foldl (fun best p =>
        match best with
        | none => some p
        | some b => if b.date < p.date then some p else some b) (some a) = some b ∧
      (b = a ∨ b ∈ l) ∧ a.date ≤ b.date ∧ ∀ q ∈ l, q.date ≤ b.date := by
    intro l
    induction l with
    | nil => intro a; exact ⟨a, rfl, Or.inl rfl, le_refl _, by simp⟩
    | cons q t ih =>
      intro a
      simp only [List.foldl_cons]
      by_cases hq : a.date < q.date
      · rw [if_pos hq]
        obtain ⟨b, hb, hmem, hle, hall⟩ := ih q
        refine ⟨b, hb, ?_, le_trans (le_of_lt hq) hle, ?_⟩
        · rcases hmem with rfl | hm
          · exact Or.inr (List.mem_cons_self _ _)
          · exact Or.inr (List.mem_cons_of_mem _ hm)
        · intro x hx
          rcases List.mem_cons.mp hx with rfl | hx'
          · exact hle
          · exact hall x hx'
      · rw [if_neg hq]
        obtain ⟨b, hb, hmem, hle, hall⟩ := ih a
        refine ⟨b, hb, ?_, hle, ?_⟩
        · rcases hmem with rfl | hm
          · exact Or.inl rfl
          · exact Or.inr (List.mem_cons_of_mem _ hm)
        · intro x hx
          rcases List.mem_cons.mp hx with rfl | hx'
          · exact le_trans (le_of_not_lt hq) hle
          · exact hall x hx'
  have hfilter : p0 ∈ prices.filter (fun p => p.date ≤ date) :=
    List.mem_filter.mpr ⟨h0, by simpa using hd⟩
  unfold latestOnOrBefore
  cases hf : prices.filter (fun p => p.date ≤ date) with
  | nil => rw [hf] at hfilter; exact absurd hfilter (List.not_mem_nil _)
  | cons x t =>
    simp only [List.foldl_cons]
    obtain ⟨b, hb, hmem, hle, hall⟩ := aux t x
    have hbf : b ∈ prices.filter (fun p => p.date ≤ date) := by
      rw [hf]
      rcases hmem with rfl | hm
      · exact List.mem_cons_self _ _
      · exact List.mem_cons_of_mem _ hm
    have hbmem := List.mem_filter.mp hbf
    refine ⟨b, hb, hbmem.1, by simpa using hbmem.2, ?_⟩
    intro q hq hqd
    have hqf : q ∈ prices.filter (fun p => p.date ≤ date) :=
      List.mem_filter.mpr ⟨hq, by simpa using hqd⟩
    rw [hf] at hqf
    rcases List.mem_cons.mp hqf with rfl | hq'
    · exact hle
    · exact hall q hq'

deriving instance DecidableEq for Except

theorem priceOn_only_dateOutOfRange (date : ℕ) (prices : List PricePoint)
    (e : CalcError) (h : priceOn date prices = .error e) : e = .dateOutOfRange := by
  unfold priceOn at h
  split at h
  · split at h
    · exact ((Except.error.injEq _ _).mp h).symm
    · exact Except.noConfusion h
  · exact Except.noConfusion h

/-- A statement with every optional field absent, used to build concrete
test inputs. -/
def mkStatement (d : ℕ) : Statement :=
  { date := d, periodType := "3M", basicAverageShares := none, dilutedAverageShares := none,
    ordinarySharesNumber := none, shareIssued := none, taxRateForCalcs := none,
    netIncome := none, freeCashFlow := none, stockBasedCompensation := none,
    totalRevenue := none, operatingIncome := none, totalDebt := none,
    cashAndCashEquivalents := none, cashCashEquivalentsAndShortTermInvestments := none,
    basicEPS := none }

/-! ## C2: the price resolver returns the close of the latest point ≤ D -/

/-- C2 (confirmed).  For every non-empty price series containing a point
dated on or before `D`, `priceOn D` succeeds and returns the close of a
point of the series whose date is maximal among the dates ≤ D (a same-day
point counts as a match). -/
theorem priceOn_latest_close (prices : List PricePoint) (D : ℕ) (p0 : PricePoint)
    (h0 : p0 ∈ prices) (hd : p0.date ≤ D) :
    ∃ b ∈ prices, b.date ≤ D ∧ (∀ q ∈ prices, q.date ≤ D → q.date ≤ b.date) ∧
      priceOn D prices = .ok (some b.close) := by
  obtain ⟨b, hb, hbmem, hbd, hball⟩ := latestOnOrBefore_spec D prices p0 h0 hd
  refine ⟨b, hbmem, hbd, hball, ?_⟩
  unfold priceOn
  split
  · next m hm =>
    have hmin := minByDate_spec prices m hm
    rw [if_neg (not_lt.mpr (le_trans (hmin.2 p0 h0) hd)), hb]
    rfl
  · next hm =>
    exact absurd ((minByDate_eq_none prices).mp hm ▸ h0) (List.not_mem_nil _)

/-- Witness for C2 at a concrete series: the point dated 2 (close 11) is
the latest on or before day 3. -/
theorem priceOn_latest_close_witness :
    ∃ b ∈ [(⟨1, 10⟩ : PricePoint), ⟨2, 11⟩, ⟨5, 12⟩], b.date ≤ 3 ∧
      (∀ q ∈ [(⟨1, 10⟩ : PricePoint), ⟨2, 11⟩, ⟨5, 12⟩], q.date ≤ 3 → q.date ≤ b.date) ∧
      priceOn 3 [⟨1, 10⟩, ⟨2, 11⟩, ⟨5, 12⟩] = .ok (some b.close) :=
  priceOn_latest_close [⟨1, 10⟩, ⟨2, 11⟩, ⟨5, 12⟩] 3 ⟨2, 11⟩ (by decide) (by decide)

/-! ## C3: when the price resolver fails with `DateOutOfRangeError` -/

/-- C3 counterexample.  The claim asserts that on an empty series `priceOn`
fails with `DateOutOfRangeError` for every date; in the code the min-date
guard is skipped when the series is empty and the function returns
`undefined` instead of throwing. -/
theorem priceOn_empty_returns_undefined :
    priceOn 5 [] = .ok none ∧ priceOn 5 [] ≠ .error .dateOutOfRange :=
  ⟨rfl, by decide⟩

/-- C3 (amended).  `priceOn D prices` fails with `DateOutOfRangeError`
exactly when the series is non-empty and `D` strictly precedes every date in
it (equivalently, its minimum date); on the empty series it instead returns
`undefined` without failing. -/
theorem priceOn_error_iff (D : ℕ) (prices : List PricePoint) :
    priceOn D prices = .error .dateOutOfRange ↔
      prices ≠ [] ∧ ∀ p ∈ prices, D < p.date := by
  constructor
  · intro h
    unfold priceOn at h
    split at h
    · next m hm =>
      split at h
      · next hd =>
        have hmin := minByDate_spec prices m hm
        refine ⟨?_, fun p hp => lt_of_lt_of_le hd (hmin.2 p hp)⟩
        intro hnil
        rw [hnil] at hm
        exact Option.noConfusion hm
      · exact Except.noConfusion h
    · exact Except.noConfusion h
  · intro ⟨hne, hall⟩
    unfold priceOn
    split
    · next m hm =>
      have hmin := minByDate_spec prices m hm
      rw [if_pos (hall m hmin.1)]
    · next hm =>
      exact absurd ((minByDate_eq_none prices).mp hm) hne

/-! ## C1: the trailing aggregator uses only the latest 4 statements -/

theorem length_sortByDate (l : List Statement) : (sortByDate l).length = l.length :=
  List.length_insertionSort dateLE l

theorem sorted_sortByDate (l : List Statement) : List.Sorted dateLE (sortByDate l) :=
  List.sorted_insertionSort dateLE l

theorem takeRight_length_of_le {α : Type} (n : ℕ) (l : List α) (h : n ≤ l.length) :
    (takeRight n l).length = n := by
  unfold takeRight
  rw [List.length_drop]
  omega

theorem takeRight_all {α : Type} (n : ℕ) (l : List α) (h : l.length ≤ n) :
    takeRight n l = l := by
  unfold takeRight
  rw [Nat.sub_eq_zero_of_le h, List.drop_zero]

theorem sorted_takeRight (n : ℕ) (l : List Statement) (h : List.Sorted dateLE l) :
    List.Sorted dateLE (takeRight n l) :=
  h.sublist (List.drop_sublist _ _)

/-- Re-windowing the trailing window is the identity: the last 4 of an
ascending-sorted series are already sorted, so sorting and taking the last 4
again changes nothing. -/
theorem window_idem (l : List Statement) (h : 4 ≤ l.length) :
    takeRight 4 (sortByDate (takeRight 4 (sortByDate l))) = takeRight 4 (sortByDate l) := by
  have hsorted : List.Sorted dateLE (takeRight 4 (sortByDate l)) :=
    sorted_takeRight 4 _ (sorted_sortByDate l)
  have heq : sortByDate (takeRight 4 (sortByDate l)) = takeRight 4 (sortByDate l) :=
    hsorted.insertionSort_eq
  rw [heq]
  exact takeRight_all 4 _ (by rw [takeRight_length_of_le 4 _ (by rw [length_sortByDate]; exact h)])

/-- C1 (confirmed).  `calculateTrailingStatistics` returns `null` on fewer
than 4 statements; on 4 or more its result coincides with its result on just
the 4 latest-dated statements (the last 4 after the stable ascending sort by
date), so the output depends only on that window and the price series. -/
theorem trailing_window_only (l : List Statement) (prices : List PricePoint) :
    (l.length < 4 → calculateTrailingStatistics l prices = .ok none) ∧
    (4 ≤ l.length → calculateTrailingStatistics l prices =
      calculateTrailingStatistics (takeRight 4 (sortByDate l)) prices) := by
  constructor
  · intro h
    unfold calculateTrailingStatistics
    rw [if_pos h]
  · intro h
    have hwlen : (takeRight 4 (sortByDate l)).length = 4 :=
      takeRight_length_of_le 4 _ (by rw [length_sortByDate]; exact h)
    unfold calculateTrailingStatistics
    rw [if_neg (by omega), if_neg (by rw [hwlen]; omega), window_idem l h]

/-- Witness for C1 on a concrete 5-statement series: dropping the earliest
statement does not change the result. -/
theorem trailing_window_only_witness :
    ((([mkStatement 5, mkStatement 1, mkStatement 2, mkStatement 3,
        { mkStatement 4 with basicAverageShares := some (JsNum.num 1000) }] :
        List Statement).length < 4) →
      calculateTrailingStatistics
        [mkStatement 5, mkStatement 1, mkStatement 2, mkStatement 3,
          { mkStatement 4 with basicAverageShares := some (JsNum.num 1000) }] [⟨1, 20⟩] =
        .ok none) ∧
    (4 ≤ ([mkStatement 5, mkStatement 1, mkStatement 2, mkStatement 3,
        { mkStatement 4 with basicAverageShares := some (JsNum.num 1000) }] :
        List Statement).length →
      calculateTrailingStatistics
        [mkStatement 5, mkStatement 1, mkStatement 2, mkStatement 3,
          { mkStatement 4 with basicAverageShares := some (JsNum.num 1000) }] [⟨1, 20⟩] =
      calculateTrailingStatistics
        (takeRight 4 (sortByDate
          [mkStatement 5, mkStatement 1, mkStatement 2, mkStatement 3,
            { mkStatement 4 with basicAverageShares := some (JsNum.num 1000) }])) [⟨1, 20⟩]) :=
  trailing_window_only _ _

/-! ## C4: null propagation and division safety in `calculateValuationMetrics` -/

/-- A possibly-absent number that is finite when present. -/
def finV : Option JsNum → Bool
  | none => true
  | some v => v.isFinite

/-- A present, finite, nonzero number. -/
def finNZ : Option JsNum → Bool
  | some (.num q) => q ≠ 0
  | _ => false

/-- All derived metrics of a record are free of NaN and of infinite
division-by-zero results: the two market caps are finite and every ratio
metric is either `null` or a finite number. -/
def computedMetricsFinite (m : ValuationMetrics) : Bool :=
  m.marketCap.isFinite && m.dilutedMarketCap.isFinite && finV m.pe && finV m.fcfYield &&
    finV m.fcfYieldAdjusted && finV m.fcfPerShare && finV m.fcfPerShareAdjusted

/-- C4 counterexample.  The claim asserts that no returned metric is ever
NaN or a division by zero, for every input; but the denominators are
unguarded: with `close = 0` and `freeCashFlow = 50` the market cap is `0`
and `fcfYield = 50 / 0 = +Infinity`. -/
theorem calcVal_divzero_cex :
    (calculateValuationMetrics
      { date := 0, close := some (JsNum.num 0), sharesOutstanding := some (JsNum.num 1000),
        dilutedSharesOutstanding := some (JsNum.num 1000), netIncome := some (JsNum.num 50),
        freeCashFlow := some (JsNum.num 50), stockBasedCompensation := none, eps := none,
        totalCash := none, totalDebt := none, totalRevenue := none,
        operatingIncome := none }).fcfYield = some JsNum.posInf ∧
    computedMetricsFinite (calculateValuationMetrics
      { date := 0, close := some (JsNum.num 0), sharesOutstanding := some (JsNum.num 1000),
        dilutedSharesOutstanding := some (JsNum.num 1000), netIncome := some (JsNum.num 50),
        freeCashFlow := some (JsNum.num 50), stockBasedCompensation := none, eps := none,
        totalCash := none, totalDebt := none, totalRevenue := none,
        operatingIncome := none }) = false := by
  constructor
  · norm_num [calculateValuationMetrics, toJs, truthyO, JsNum.truthy, JsNum.mul, JsNum.div]
  · norm_num [calculateValuationMetrics, computedMetricsFinite, finV, toJs, truthyO,
      JsNum.truthy, JsNum.mul, JsNum.div, JsNum.isFinite]

/-- C4 (amended).  The numerator guards hold unconditionally: a zero `eps`
yields a `null` `pe`, and a zero or absent `freeCashFlow` yields `null`
`fcfYield` and `fcfPerShare`.  The no-NaN/no-division-by-zero part holds
provided the denominators are safe: whenever `close`, `sharesOutstanding`
and `dilutedSharesOutstanding` are present, finite and nonzero and
`freeCashFlow` and `stockBasedCompensation` are finite when present, every
derived metric is `null` or a finite number. -/
theorem calcVal_null_and_finite (i : StatisticsInput) :
    (i.eps = some (JsNum.num 0) → (calculateValuationMetrics i).pe = none) ∧
    ((i.freeCashFlow = none ∨ i.freeCashFlow = some (JsNum.num 0)) →
      (calculateValuationMetrics i).fcfYield = none ∧
      (calculateValuationMetrics i).fcfPerShare = none) ∧
    (finNZ i.close = true → finNZ i.sharesOutstanding = true →
      finNZ i.dilutedSharesOutstanding = true → finV i.freeCashFlow = true →
      finV i.stockBasedCompensation = true →
      computedMetricsFinite (calculateValuationMetrics i) = true) := by
  refine ⟨?_, ?_, ?_⟩
  · intro h
    simp [calculateValuationMetrics, h, truthyO, JsNum.truthy]
  · intro h
    rcases h with h | h <;> simp [calculateValuationMetrics, h, truthyO, JsNum.truthy]
  · intro hc hs hd hf hb
    obtain ⟨c, hcv, hc0⟩ : ∃ q, i.close = some (JsNum.num q) ∧ q ≠ 0 := by
      unfold finNZ at hc
      rcases hv : i.close with _ | v
      · rw [hv] at hc; exact Bool.noConfusion hc
      · rcases v with q | _ | _ | _ <;> rw [hv] at hc <;>
          first
          | exact ⟨_, rfl, by simpa using hc⟩
          | exact Bool.noConfusion hc
    obtain ⟨s, hsv, hs0⟩ : ∃ q, i.sharesOutstanding = some (JsNum.num q) ∧ q ≠ 0 := by
      unfold finNZ at hs
      rcases hv : i.sharesOutstanding with _ | v
      · rw [hv] at hs; exact Bool.noConfusion hs
      · rcases v with q | _ | _ | _ <;> rw [hv] at hs <;>
          first
          | exact ⟨_, rfl, by simpa using hs⟩
          | exact Bool.noConfusion hs
    obtain ⟨d, hdv, hd0⟩ : ∃ q, i.dilutedSharesOutstanding = some (JsNum.num q) ∧ q ≠ 0 := by
      unfold finNZ at hd
      rcases hv : i.dilutedSharesOutstanding with _ | v
      · rw [hv] at hd; exact Bool.noConfusion hd
      · rcases v with q | _ | _ | _ <;> rw [hv] at hd <;>
          first
          | exact ⟨_, rfl, by simpa using hd⟩
          | exact Bool.noConfusion hd
    have hcs : c * s ≠ 0 := mul_ne_zero hc0 hs0
    have hcd : c * d ≠ 0 := mul_ne_zero hc0 hd0
    unfold computedMetricsFinite calculateValuationMetrics
    simp only [hcv, hsv, hdv, toJs]
    rcases hfv : i.freeCashFlow with _ | vf
    · rcases hbv : i.stockBasedCompensation with _ | vb
      · rcases hev : i.eps with _ | ve
        · simp [truthyO, JsNum.mul, JsNum.isFinite, finV]
        · rcases ve with q | _ | _ | _ <;>
            simp [truthyO, JsNum.truthy, JsNum.mul, JsNum.div, JsNum.isFinite, finV, toJs] <;>
            split_ifs <;> simp_all [JsNum.isFinite]
      · rw [hbv] at hb
        rcases vb with qb | _ | _ | _ <;> simp only [finV, JsNum.isFinite] at hb <;>
          try exact Bool.noConfusion hb
        rcases hev : i.eps with _ | ve
        · simp [truthyO, JsNum.truthy, JsNum.mul, JsNum.isFinite, finV]
        · rcases ve with q | _ | _ | _ <;>
            simp [truthyO, JsNum.truthy, JsNum.mul, JsNum.div, JsNum.isFinite, finV, toJs] <;>
            split_ifs <;> simp_all [JsNum.isFinite]
    · rw [hfv] at hf
      rcases vf with qf | _ | _ | _ <;> simp only [finV, JsNum.isFinite] at hf <;>
        try exact Bool.noConfusion hf
      rcases hbv : i.stockBasedCompensation with _ | vb
      · rcases hev : i.eps with _ | ve
        · simp [truthyO, JsNum.truthy, JsNum.mul, JsNum.div, JsNum.isFinite, finV, toJs,
            hcs, hs0] <;> split_ifs <;> simp_all [JsNum.isFinite]
        · rcases ve with q | _ | _ | _ <;>
            simp [truthyO, JsNum.truthy, JsNum.mul, JsNum.div, JsNum.isFinite, finV, toJs,
              hcs, hs0] <;>
            split_ifs <;> simp_all [JsNum.isFinite]
      · rw [hbv] at hb
        rcases vb with qb | _ | _ | _ <;> simp only [finV, JsNum.isFinite] at hb <;>
          try exact Bool.noConfusion hb
        rcases hev : i.eps with _ | ve
        · simp [truthyO, JsNum.truthy, JsNum.mul, JsNum.div, JsNum.sub, JsNum.add, JsNum.neg,
            JsNum.isFinite, finV, toJs, hcs, hcd, hs0, hd0] <;>
            split_ifs <;> simp_all [JsNum.isFinite]
        · rcases ve with q | _ | _ | _ <;>
            simp [truthyO, JsNum.truthy, JsNum.mul, JsNum.div, JsNum.sub, JsNum.add, JsNum.neg,
              JsNum.isFinite, finV, toJs, hcs, hcd, hs0, hd0] <;>
            split_ifs <;> simp_all [JsNum.isFinite]

/-- Witness for C4 (amended) at a concrete input with `eps = 0` and
`freeCashFlow = 0`: `pe`, `fcfYield` and `fcfPerShare` are `null` and every
derived metric is finite. -/
theorem calcVal_null_and_finite_witness :
    (calculateValuationMetrics
      { date := 0, close := some (JsNum.num 20), sharesOutstanding := some (JsNum.num 4),
        dilutedSharesOutstanding := some (JsNum.num 5), netIncome := none,
        freeCashFlow := some (JsNum.num 0), stockBasedCompensation := none,
        eps := some (JsNum.num 0), totalCash := none, totalDebt := none, totalRevenue := none,
        operatingIncome := none }).pe = none ∧
    ((calculateValuationMetrics
      { date := 0, close := some (JsNum.num 20), sharesOutstanding := some (JsNum.num 4),
        dilutedSharesOutstanding := some (JsNum.num 5), netIncome := none,
        freeCashFlow := some (JsNum.num 0), stockBasedCompensation := none,
        eps := some (JsNum.num 0), totalCash := none, totalDebt := none, totalRevenue := none,
        operatingIncome := none }).fcfYield = none ∧
     (calculateValuationMetrics
      { date := 0, close := some (JsNum.num 20), sharesOutstanding := some (JsNum.num 4),
        dilutedSharesOutstanding := some (JsNum.num 5), netIncome := none,
        freeCashFlow := some (JsNum.num 0), stockBasedCompensation := none,
        eps := some (JsNum.num 0), totalCash := none, totalDebt := none, totalRevenue := none,
        operatingIncome := none }).fcfPerShare = none) ∧
    computedMetricsFinite (calculateValuationMetrics
      { date := 0, close := some (JsNum.num 20), sharesOutstanding := some (JsNum.num 4),
        dilutedSharesOutstanding := some (JsNum.num 5), netIncome := none,
        freeCashFlow := some (JsNum.num 0), stockBasedCompensation := none,
        eps := some (JsNum.num 0), totalCash := none, totalDebt := none, totalRevenue := none,
        operatingIncome := none }) = true := by
  obtain ⟨h1, h2, h3⟩ := calcVal_null_and_finite
    { date := 0, close := some (JsNum.num 20), sharesOutstanding := some (JsNum.num 4),
      dilutedSharesOutstanding := some (JsNum.num 5), netIncome := none,
      freeCashFlow := some (JsNum.num 0), stockBasedCompensation := none,
      eps := some (JsNum.num 0), totalCash := none, totalDebt := none, totalRevenue := none,
      operatingIncome := none }
  exact ⟨h1 rfl, h2 (Or.inr rfl), h3 (by norm_num [finNZ]) (by norm_num [finNZ])
    (by norm_num [finNZ]) (by simp [finV, JsNum.isFinite]) (by simp [finV])⟩

/-! ## C5: growth nulling policy -/

/-- Spec-side predicate: a growth endpoint is "missing, zero, or
non-positive".  An ill-defined `NaN` value counts as missing;
`-Infinity` is non-positive, `+Infinity` is a positive value. -/
def missingZeroOrNonPositive : Option JsNum → Bool
  | none => true
  | some (.num q) => q ≤ 0
  | some .nan => true
  | some .posInf => false
  | some .negInf => true

theorem growth_guard_eq (a : Option JsNum) :
    (!truthyO a || (toJs a).le0) = missingZeroOrNonPositive a := by
  rcases a with _ | v
  · rfl
  · rcases v with q | _ | _ | _
    · by_cases h : q = 0
      · subst h; simp [truthyO, JsNum.truthy, toJs, JsNum.le0, missingZeroOrNonPositive]
      · simp [truthyO, JsNum.truthy, toJs, JsNum.le0, missingZeroOrNonPositive, h]
    · rfl
    · rfl
    · rfl

theorem growth_guard_pair (a b : Option JsNum) :
    (!truthyO a || !truthyO b || (toJs a).le0 || (toJs b).le0) =
      (missingZeroOrNonPositive a || missingZeroOrNonPositive b) := by
  rw [← growth_guard_eq a, ← growth_guard_eq b]
  cases truthyO a <;> cases truthyO b <;>
    cases (toJs a).le0 <;> cases (toJs b).le0 <;> rfl

/-- C5 (confirmed).  On fewer than 4 periods `calculateGrowth` is `null`.
On 4 or more, it returns a record in which each metric's rate is `null`
exactly when that metric's start or end value over the sorted 4-period
window is missing, zero or non-positive — the condition for one metric
reads only that metric's own endpoints, so one rate can be `null` while the
other is defined. -/
theorem calculateGrowth_null_policy (l : List Statement) :
    (l.length < 4 → calculateGrowth l = none) ∧
    (4 ≤ l.length →
      ∀ firstS lastS, (takeRight 4 (sortByDate l)).head? = some firstS →
        (takeRight 4 (sortByDate l)).getLast? = some lastS →
        ∃ g, calculateGrowth l = some g ∧
          (g.revenue = none ↔
            (missingZeroOrNonPositive firstS.totalRevenue ||
              missingZeroOrNonPositive lastS.totalRevenue) = true) ∧
          (g.earnings = none ↔
            (missingZeroOrNonPositive firstS.netIncome ||
              missingZeroOrNonPositive lastS.netIncome) = true)) := by
  constructor
  · intro h
    unfold calculateGrowth
    rw [if_pos h]
  · intro h firstS lastS hf hl
    unfold calculateGrowth
    rw [if_neg (by omega)]
    simp only [hf, hl]
    refine ⟨_, rfl, ?_, ?_⟩
    · simp only [growth_guard_pair]
      cases hc : (missingZeroOrNonPositive firstS.totalRevenue ||
          missingZeroOrNonPositive lastS.totalRevenue) <;> simp [hc]
    · simp only [growth_guard_pair]
      cases hc : (missingZeroOrNonPositive firstS.netIncome ||
          missingZeroOrNonPositive lastS.netIncome) <;> simp [hc]

/-- Witness for C5 on a concrete 4-period series whose revenue endpoints
are positive but whose first net income is negative: the revenue rate is
defined while the earnings rate is `null`. -/
theorem calculateGrowth_null_policy_witness :
    ∃ g, calculateGrowth
        [{ mkStatement 1 with totalRevenue := some (JsNum.num 1000), netIncome := some (JsNum.num (-5)) },
          { mkStatement 2 with totalRevenue := some (JsNum.num 1100) },
          { mkStatement 3 with totalRevenue := some (JsNum.num 1200) },
          { mkStatement 4 with totalRevenue := some (JsNum.num 1331), netIncome := some (JsNum.num 7) }] = some g ∧
      (g.revenue = none ↔
        (missingZeroOrNonPositive (some (JsNum.num 1000)) ||
          missingZeroOrNonPositive (some (JsNum.num 1331))) = true) ∧
      (g.earnings = none ↔
        (missingZeroOrNonPositive (some (JsNum.num (-5))) ||
          missingZeroOrNonPositive (some (JsNum.num 7))) = true) :=
  (calculateGrowth_null_policy
      [{ mkStatement 1 with totalRevenue := some (JsNum.num 1000), netIncome := some (JsNum.num (-5)) },
        { mkStatement 2 with totalRevenue := some (JsNum.num 1100) },
        { mkStatement 3 with totalRevenue := some (JsNum.num 1200) },
        { mkStatement 4 with totalRevenue := some (JsNum.num 1331), netIncome := some (JsNum.num 7) }]).2
    (by decide)
    { mkStatement 1 with totalRevenue := some (JsNum.num 1000), netIncome := some (JsNum.num (-5)) }
    { mkStatement 4 with totalRevenue := some (JsNum.num 1331), netIncome := some (JsNum.num 7) }
    rfl rfl

/-! ## C6: the shares-outstanding resolution and `MissingFieldError` -/

/-- C6 counterexample.  The fallback is nullish (`??`), not falsy: when the
last statement reports `basicAverageShares = 0` the code keeps the `0` and
throws even though `ordinarySharesNumber = 500` is present and nonzero — the
claim's "fails iff both fields are absent or zero" is false. -/
theorem trailing_zero_basic_ignores_ordinary_cex :
    calculateTrailingStatistics
        [mkStatement 1, mkStatement 2, mkStatement 3,
          { mkStatement 4 with basicAverageShares := some (JsNum.num 0), ordinarySharesNumber := some (JsNum.num 500) }]
        [] =
      .error (.missingField "Shares outstanding not found") ∧
    ({ mkStatement 4 with basicAverageShares := some (JsNum.num 0), ordinarySharesNumber := some (JsNum.num 500) } : Statement).ordinarySharesNumber =
      some (JsNum.num 500) := by
  refine ⟨?_, rfl⟩
  norm_num [calculateTrailingStatistics, sortByDate, takeRight, mkStatement, dateLE,
    nullishOr, truthyO, JsNum.truthy]

/-- C6 (amended).  Over a series of at least 4 statements, shares
outstanding is the last sorted statement's `basicAverageShares` when that
field is present (even if zero), else its `ordinarySharesNumber`; the
computation fails with `MissingFieldError` ("Shares outstanding not found")
iff that nullish resolution is falsy — absent, zero or NaN.  In particular a
present zero `basicAverageShares` throws regardless of
`ordinarySharesNumber`. -/
theorem trailing_missingShares_iff (l : List Statement) (prices : List PricePoint)
    (h4 : 4 ≤ l.length) (lastS : Statement)
    (hlast : (takeRight 4 (sortByDate l)).getLast? = some lastS) :
    calculateTrailingStatistics l prices =
        .error (.missingField "Shares outstanding not found") ↔
      truthyO (nullishOr lastS.basicAverageShares lastS.ordinarySharesNumber) = false := by
  unfold calculateTrailingStatistics
  rw [if_neg (by omega)]
  simp only [hlast]
  cases hg : truthyO (nullishOr lastS.basicAverageShares lastS.ordinarySharesNumber)
  · simp
  · simp only [Bool.not_true, if_neg (by simp : ¬ (false = true))]
    constructor
    · intro h
      cases hp : priceOn lastS.date prices with
      | error e =>
        rw [hp] at h
        have := priceOn_only_dateOutOfRange lastS.date prices e hp
        subst this
        exact absurd ((Except.error.injEq _ _).mp h) (by simp)
      | ok cl =>
        rw [hp] at h
        exact Except.noConfusion h
    · intro h
      exact Bool.noConfusion h

/-- Witness for C6 (amended) at a concrete series whose last statement has
neither share field: the aggregator throws `MissingFieldError`. -/
theorem trailing_missingShares_iff_witness :
    calculateTrailingStatistics [mkStatement 1, mkStatement 2, mkStatement 3, mkStatement 4]
        [] = .error (.missingField "Shares outstanding not found") :=
  (trailing_missingShares_iff [mkStatement 1, mkStatement 2, mkStatement 3, mkStatement 4]
    [] (by decide) (mkStatement 4) rfl).mpr rfl

/-! ## C7: when the TTM fallback returns `null` -/

/-- C7 counterexample.  The claim says `null` is returned only when shares
outstanding, net income and free cash flow are *all* missing; but the guard
is a disjunction of falsiness: with shares and free cash flow present and
only net income absent the code still returns `null`. -/
theorem getTTM_single_missing_cex :
    getTTMStatistics
        [{ mkStatement 10 with basicAverageShares := some (JsNum.num 1000), freeCashFlow := some (JsNum.num 50) }]
        [⟨5, 20⟩] = .ok none ∧
    ({ mkStatement 10 with basicAverageShares := some (JsNum.num 1000), freeCashFlow := some (JsNum.num 50) } : Statement).basicAverageShares =
      some (JsNum.num 1000) ∧
    ({ mkStatement 10 with basicAverageShares := some (JsNum.num 1000), freeCashFlow := some (JsNum.num 50) } : Statement).freeCashFlow =
      some (JsNum.num 50) := by
  refine ⟨?_, rfl, rfl⟩
  norm_num [getTTMStatistics, sortByDate, takeRight, mkStatement, dateLE, priceOn,
    minByDate, latestOnOrBefore, jsOr, truthyO, JsNum.truthy]

/-- C7 (amended).  `getTTMStatistics` returns `null` when the series is
empty, and otherwise — given the latest-dated statement and a successful
price lookup — returns `null` iff *any* of the falsy-or shares resolution,
the net income or the free cash flow of that statement is falsy (absent,
zero or NaN); when all three are truthy it produces a record from that
single statement, using its reported `basicEPS` directly as the EPS. -/
theorem getTTM_null_iff (statements : List Statement) (prices : List PricePoint) :
    (statements = [] → getTTMStatistics statements prices = .ok none) ∧
    (∀ st, (sortByDate statements).getLast? = some st →
      ∀ cl, priceOn st.date prices = .ok cl →
        (getTTMStatistics statements prices = .ok none ↔
          (truthyO (jsOr st.basicAverageShares st.ordinarySharesNumber) &&
            truthyO st.netIncome && truthyO st.freeCashFlow) = false) ∧
        ((truthyO (jsOr st.basicAverageShares st.ordinarySharesNumber) &&
            truthyO st.netIncome && truthyO st.freeCashFlow) = true →
          ∃ r, getTTMStatistics statements prices = .ok (some r) ∧
            r.eps = st.basicEPS)) := by
  constructor
  · intro h
    subst h
    rfl
  · intro st hlast cl hp
    have hne : ¬ statements.length = 0 := by
      intro h0
      rw [List.length_eq_zero] at h0
      subst h0
      exact Option.noConfusion hlast
    unfold getTTMStatistics
    rw [if_neg hne]
    simp only [hlast, hp]
    cases hg : (truthyO (jsOr st.basicAverageShares st.ordinarySharesNumber) &&
        truthyO st.netIncome && truthyO st.freeCashFlow)
    · simp
    · simp only [Bool.not_true, if_neg (by simp : ¬ (false = true))]
      refine ⟨by simp, fun _ => ⟨_, rfl, rfl⟩⟩

/-- Witness for C7 (amended) at a single-statement series with shares, net
income and free cash flow all present: a record is produced and its EPS is
the statement's reported `basicEPS`. -/
theorem getTTM_null_iff_witness :
    ∃ r, getTTMStatistics
        [{ mkStatement 10 with basicAverageShares := some (JsNum.num 1000), netIncome := some (JsNum.num 10), freeCashFlow := some (JsNum.num 50), basicEPS := some (JsNum.num 2) }]
        [⟨5, 20⟩] = .ok (some r) ∧ r.eps = some (JsNum.num 2) := by
  have h := (getTTM_null_iff
    [{ mkStatement 10 with basicAverageShares := some (JsNum.num 1000), netIncome := some (JsNum.num 10), freeCashFlow := some (JsNum.num 50), basicEPS := some (JsNum.num 2) }]
    [⟨5, 20⟩]).2
    { mkStatement 10 with basicAverageShares := some (JsNum.num 1000), netIncome := some (JsNum.num 10), freeCashFlow := some (JsNum.num 50), basicEPS := some (JsNum.num 2) }
    rfl (some 20) rfl
  exact h.2 (by norm_num [jsOr, truthyO, JsNum.truthy])

/-! ## C8: currency conversion never alters non-monetary fields -/

/-- C8 (confirmed).  A successful conversion pairs each input statement with
an output statement that keeps `date`, `periodType` and the five
share/tax fields verbatim, while each monetary field, when present, is the
input value multiplied by the FX rate that `priceOn` resolves at the
statement's date (an `undefined` rate multiplies as NaN). -/
theorem convertCurrency_frame (statements : List Statement) (rates : List PricePoint)
    (result : List Statement)
    (h : convertCurrencyInStatements statements rates = .ok result) :
    List.Forall₂ (fun s r =>
      r.date = s.date ∧ r.periodType = s.periodType ∧
      r.basicAverageShares = s.basicAverageShares ∧
      r.dilutedAverageShares = s.dilutedAverageShares ∧
      r.ordinarySharesNumber = s.ordinarySharesNumber ∧
      r.shareIssued = s.shareIssued ∧
      r.taxRateForCalcs = s.taxRateForCalcs ∧
      ∃ rate, priceOn s.date rates = .ok rate ∧
        r.netIncome = s.netIncome.map (JsNum.mul · (toJs (rate.map JsNum.num))) ∧
        r.freeCashFlow = s.freeCashFlow.map (JsNum.mul · (toJs (rate.map JsNum.num))) ∧
        r.stockBasedCompensation =
          s.stockBasedCompensation.map (JsNum.mul · (toJs (rate.map JsNum.num))) ∧
        r.totalRevenue = s.totalRevenue.map (JsNum.mul · (toJs (rate.map JsNum.num))) ∧
        r.operatingIncome = s.operatingIncome.map (JsNum.mul · (toJs (rate.map JsNum.num))) ∧
        r.totalDebt = s.totalDebt.map (JsNum.mul · (toJs (rate.map JsNum.num))) ∧
        r.cashAndCashEquivalents =
          s.cashAndCashEquivalents.map (JsNum.mul · (toJs (rate.map JsNum.num))) ∧
        r.cashCashEquivalentsAndShortTermInvestments =
          s.cashCashEquivalentsAndShortTermInvestments.map
            (JsNum.mul · (toJs (rate.map JsNum.num))) ∧
        r.basicEPS = s.basicEPS.map (JsNum.mul · (toJs (rate.map JsNum.num))))
      statements result := by
  induction statements generalizing result with
  | nil =>
    unfold convertCurrencyInStatements at h
    cases h
    exact List.Forall₂.nil
  | cons s rest ih =>
    unfold convertCurrencyInStatements at h
    cases hp : priceOn s.date rates with
    | error e => rw [hp] at h; exact Except.noConfusion h
    | ok rate =>
      rw [hp] at h
      cases hr : convertCurrencyInStatements rest rates with
      | error e => rw [hr] at h; exact Except.noConfusion h
      | ok tail =>
        rw [hr] at h
        cases h
        exact List.Forall₂.cons
          ⟨rfl, rfl, rfl, rfl, rfl, rfl, rfl,
            rate, hp, rfl, rfl, rfl, rfl, rfl, rfl, rfl, rfl, rfl⟩
          (ih tail hr)

/-- Witness for C8 at a one-statement series and the FX series `[⟨1, 2⟩]`:
the converted statement keeps the identifying fields and doubles the
monetary ones. -/
theorem convertCurrency_frame_witness :
    List.Forall₂ (fun s r =>
      r.date = s.date ∧ r.periodType = s.periodType ∧
      r.basicAverageShares = s.basicAverageShares ∧
      r.dilutedAverageShares = s.dilutedAverageShares ∧
      r.ordinarySharesNumber = s.ordinarySharesNumber ∧
      r.shareIssued = s.shareIssued ∧
      r.taxRateForCalcs = s.taxRateForCalcs ∧
      ∃ rate, priceOn s.date [(⟨1, 2⟩ : PricePoint)] = .ok rate ∧
        r.netIncome = s.netIncome.map (JsNum.mul · (toJs (rate.map JsNum.num))) ∧
        r.freeCashFlow = s.freeCashFlow.map (JsNum.mul · (toJs (rate.map JsNum.num))) ∧
        r.stockBasedCompensation =
          s.stockBasedCompensation.map (JsNum.mul · (toJs (rate.map JsNum.num))) ∧
        r.totalRevenue = s.totalRevenue.map (JsNum.mul · (toJs (rate.map JsNum.num))) ∧
        r.operatingIncome = s.operatingIncome.map (JsNum.mul · (toJs (rate.map JsNum.num))) ∧
        r.totalDebt = s.totalDebt.map (JsNum.mul · (toJs (rate.map JsNum.num))) ∧
        r.cashAndCashEquivalents =
          s.cashAndCashEquivalents.map (JsNum.mul · (toJs (rate.map JsNum.num))) ∧
        r.cashCashEquivalentsAndShortTermInvestments =
          s.cashCashEquivalentsAndShortTermInvestments.map
            (JsNum.mul · (toJs (rate.map JsNum.num))) ∧
        r.basicEPS = s.basicEPS.map (JsNum.mul · (toJs (rate.map JsNum.num))))
      [{ mkStatement 5 with netIncome := some (JsNum.num 3), basicAverageShares := some (JsNum.num 7) }]
      [convertOneStatement (some 2)
        { mkStatement 5 with netIncome := some (JsNum.num 3), basicAverageShares := some (JsNum.num 7) }] :=
  convertCurrency_frame
    [{ mkStatement 5 with netIncome := some (JsNum.num 3), basicAverageShares := some (JsNum.num 7) }]
    [⟨1, 2⟩]
    [convertOneStatement (some 2)
      { mkStatement 5 with netIncome := some (JsNum.num 3), basicAverageShares := some (JsNum.num 7) }]
    rfl

/-! ## C9: TTM sums treat absent flow fields as zero -/

/-- Spec-side aggregate: the sum over the window in which an absent field
contributes zero. -/
def sumTreatingAbsentAsZero (l : List (Option JsNum)) : JsNum :=
  l.foldl (fun acc v => JsNum.add acc (v.getD (JsNum.num 0))) (JsNum.num 0)

theorem JsNum.add_num_zero (a : JsNum) : JsNum.add a (JsNum.num 0) = a := by
  cases a <;> simp [JsNum.add]

theorem JsNum.num_zero_add (a : JsNum) : JsNum.add (JsNum.num 0) a = a := by
  cases a <;> simp [JsNum.add]

theorem lodashSum_from_some (l : List (Option JsNum)) (a : JsNum) :
    l.foldl
      (fun acc v =>
        match v with
        | none => acc
        | some x =>
          match acc with
          | none => some x
          | some a => some (JsNum.add a x))
      (some a) =
    some (l.foldl (fun acc v => JsNum.add acc (v.getD (JsNum.num 0))) a) := by
  induction l generalizing a with
  | nil => rfl
  | cons v t ih =>
    cases v with
    | none =>
      simp only [List.foldl_cons, Option.getD_none, JsNum.add_num_zero]
      exact ih a
    | some x =>
      simp only [List.foldl_cons, Option.getD_some]
      exact ih (JsNum.add a x)

theorem lodashSum_eq_sumTreatingAbsentAsZero (l : List (Option JsNum))
    (h : ∃ v ∈ l, v ≠ none) :
    lodashSum l = some (sumTreatingAbsentAsZero l) := by
  induction l with
  | nil => obtain ⟨v, hv, _⟩ := h; exact absurd hv (List.not_mem_nil _)
  | cons v t ih =>
    cases v with
    | none =>
      have ht : ∃ v ∈ t, v ≠ none := by
        obtain ⟨w, hw, hwne⟩ := h
        rcases List.mem_cons.mp hw with hw' | hw'
        · exact absurd hw' hwne
        · exact ⟨w, hw', hwne⟩
      unfold lodashSum sumTreatingAbsentAsZero at ih ⊢
      simp only [List.foldl_cons, Option.getD_none, JsNum.add_num_zero]
      exact ih ht
    | some x =>
      unfold lodashSum sumTreatingAbsentAsZero
      simp only [List.foldl_cons, Option.getD_some, JsNum.num_zero_add]
      exact lodashSum_from_some t x

/-- C9 (confirmed).  Over a window of 4 statements with a truthy shares
resolution and a successful price lookup, the aggregator produces a record
(not `null`), and each TTM flow aggregate over statements that do not all
lack the field equals the sum in which an absent field contributes zero. -/
theorem trailing_sums_treat_absent_as_zero (l : List Statement) (prices : List PricePoint)
    (h4 : 4 ≤ l.length) (lastS : Statement)
    (hlast : (takeRight 4 (sortByDate l)).getLast? = some lastS)
    (hso : truthyO (nullishOr lastS.basicAverageShares lastS.ordinarySharesNumber) = true)
    (cl : Option ℚ) (hp : priceOn lastS.date prices = .ok cl) :
    ∃ r, calculateTrailingStatistics l prices = .ok (some r) ∧
      ((∃ s ∈ takeRight 4 (sortByDate l), s.netIncome ≠ none) →
        r.netIncome = some (sumTreatingAbsentAsZero
          ((takeRight 4 (sortByDate l)).map (·.netIncome)))) ∧
      ((∃ s ∈ takeRight 4 (sortByDate l), s.freeCashFlow ≠ none) →
        r.freeCashFlow = some (sumTreatingAbsentAsZero
          ((takeRight 4 (sortByDate l)).map (·.freeCashFlow)))) ∧
      ((∃ s ∈ takeRight 4 (sortByDate l), s.stockBasedCompensation ≠ none) →
        r.stockBasedCompensation = some (sumTreatingAbsentAsZero
          ((takeRight 4 (sortByDate l)).map (·.stockBasedCompensation)))) ∧
      ((∃ s ∈ takeRight 4 (sortByDate l), s.totalRevenue ≠ none) →
        r.totalRevenue = some (sumTreatingAbsentAsZero
          ((takeRight 4 (sortByDate l)).map (·.totalRevenue)))) ∧
      ((∃ s ∈ takeRight 4 (sortByDate l), s.operatingIncome ≠ none) →
        r.operatingIncome = some (sumTreatingAbsentAsZero
          ((takeRight 4 (sortByDate l)).map (·.operatingIncome)))) := by
  unfold calculateTrailingStatistics
  rw [if_neg (by omega)]
  simp only [hlast, hso, Bool.not_true, if_neg (by simp : ¬ (false = true)), hp]
  refine ⟨_, rfl, ?_, ?_, ?_, ?_, ?_⟩ <;>
    · intro hex
      obtain ⟨s, hs, hsne⟩ := hex
      simp only [calculateValuationMetrics]
      exact lodashSum_eq_sumTreatingAbsentAsZero _
        ⟨_, List.mem_map_of_mem _ hs, hsne⟩

/-- Witness for C9 on a window where only two statements carry net income
(100 each) and one carries free cash flow: the aggregates are the
absent-as-zero sums and a record is produced. -/
theorem trailing_sums_treat_absent_as_zero_witness :
    ∃ r, calculateTrailingStatistics
        [{ mkStatement 1 with netIncome := some (JsNum.num 100) },
          mkStatement 2,
          { mkStatement 3 with freeCashFlow := some (JsNum.num 40) },
          { mkStatement 4 with netIncome := some (JsNum.num 100), basicAverageShares := some (JsNum.num 1000) }]
        [⟨1, 20⟩] = .ok (some r) ∧
      ((∃ s ∈ takeRight 4 (sortByDate
          [{ mkStatement 1 with netIncome := some (JsNum.num 100) },
            mkStatement 2,
            { mkStatement 3 with freeCashFlow := some (JsNum.num 40) },
            { mkStatement 4 with netIncome := some (JsNum.num 100), basicAverageShares := some (JsNum.num 1000) }]),
          s.netIncome ≠ none) →
        r.netIncome = some (sumTreatingAbsentAsZero
          ((takeRight 4 (sortByDate
            [{ mkStatement 1 with netIncome := some (JsNum.num 100) },
              mkStatement 2,
              { mkStatement 3 with freeCashFlow := some (JsNum.num 40) },
              { mkStatement 4 with netIncome := some (JsNum.num 100), basicAverageShares := some (JsNum.num 1000) }])).map
            (·.netIncome)))) ∧
      ((∃ s ∈ takeRight 4 (sortByDate
          [{ mkStatement 1 with netIncome := some (JsNum.num 100) },
            mkStatement 2,
            { mkStatement 3 with freeCashFlow := some (JsNum.num 40) },
            { mkStatement 4 with netIncome := some (JsNum.num 100), basicAverageShares := some (JsNum.num 1000) }]),
          s.freeCashFlow ≠ none) →
        r.freeCashFlow = some (sumTreatingAbsentAsZero
          ((takeRight 4 (sortByDate
            [{ mkStatement 1 with netIncome := some (JsNum.num 100) },
              mkStatement 2,
              { mkStatement 3 with freeCashFlow := some (JsNum.num 40) },
              { mkStatement 4 with netIncome := some (JsNum.num 100), basicAverageShares := some (JsNum.num 1000) }])).map
            (·.freeCashFlow)))) ∧
      ((∃ s ∈ takeRight 4 (sortByDate
          [{ mkStatement 1 with netIncome := some (JsNum.num 100) },
            mkStatement 2,
            { mkStatement 3 with freeCashFlow := some (JsNum.num 40) },
            { mkStatement 4 with netIncome := some (JsNum.num 100), basicAverageShares := some (JsNum.num 1000) }]),
          s.stockBasedCompensation ≠ none) →
        r.stockBasedCompensation = some (sumTreatingAbsentAsZero
          ((takeRight 4 (sortByDate
            [{ mkStatement 1 with netIncome := some (JsNum.num 100) },
              mkStatement 2,
              { mkStatement 3 with freeCashFlow := some (JsNum.num 40) },
              { mkStatement 4 with netIncome := some (JsNum.num 100), basicAverageShares := some (JsNum.num 1000) }])).map
            (·.stockBasedCompensation)))) ∧
      ((∃ s ∈ takeRight 4 (sortByDate
          [{ mkStatement 1 with netIncome := some (JsNum.num 100) },
            mkStatement 2,
            { mkStatement 3 with freeCashFlow := some (JsNum.num 40) },
            { mkStatement 4 with netIncome := some (JsNum.num 100), basicAverageShares := some (JsNum.num 1000) }]),
          s.totalRevenue ≠ none) →
        r.totalRevenue = some (sumTreatingAbsentAsZero
          ((takeRight 4 (sortByDate
            [{ mkStatement 1 with netIncome := some (JsNum.num 100) },
              mkStatement 2,
              { mkStatement 3 with freeCashFlow := some (JsNum.num 40) },
              { mkStatement 4 with netIncome := some (JsNum.num 100), basicAverageShares := some (JsNum.num 1000) }])).map
            (·.totalRevenue)))) ∧
      ((∃ s ∈ takeRight 4 (sortByDate
          [{ mkStatement 1 with netIncome := some (JsNum.num 100) },
            mkStatement 2,
            { mkStatement 3 with freeCashFlow := some (JsNum.num 40) },
            { mkStatement 4 with netIncome := some (JsNum.num 100), basicAverageShares := some (JsNum.num 1000) }]),
          s.operatingIncome ≠ none) →
        r.operatingIncome = some (sumTreatingAbsentAsZero
          ((takeRight 4 (sortByDate
            [{ mkStatement 1 with netIncome := some (JsNum.num 100) },
              mkStatement 2,
              { mkStatement 3 with freeCashFlow := some (JsNum.num 40) },
              { mkStatement 4 with netIncome := some (JsNum.num 100), basicAverageShares := some (JsNum.num 1000) }])).map
            (·.operatingIncome)))) :=
  trailing_sums_treat_absent_as_zero
    [{ mkStatement 1 with netIncome := some (JsNum.num 100) },
      mkStatement 2,
      { mkStatement 3 with freeCashFlow := some (JsNum.num 40) },
      { mkStatement 4 with netIncome := some (JsNum.num 100), basicAverageShares := some (JsNum.num 1000) }]
    [⟨1, 20⟩] (by decide)
    { mkStatement 4 with netIncome := some (JsNum.num 100), basicAverageShares := some (JsNum.num 1000) }
    rfl (by norm_num [nullishOr, truthyO, JsNum.truthy]) (some 20) rfl

/-! ## C10: every produced trailing record has truthy shares outstanding -/

theorem truthyO_jsOr_of_right (a b : Option JsNum) (hb : truthyO b = true) :
    truthyO (jsOr a b) = true := by
  unfold jsOr
  cases ha : truthyO a
  · simpa [ha] using hb
  · simpa [ha] using ha

theorem truthyO_ne_zero (v : Option JsNum) (h : truthyO v = true) :
    v ≠ some (JsNum.num 0) := by
  intro hv
  subst hv
  simp [truthyO, JsNum.truthy] at h

/-- C10 (confirmed).  Every non-`null` record returned by
`calculateTrailingStatistics` carries truthy (present, non-NaN, nonzero)
`sharesOutstanding` and `dilutedSharesOutstanding` — the function throws
before producing a record otherwise — so the per-share divisions
`calculateValuationMetrics` performs with these denominators
(`fcfPerShare`, `fcfPerShareAdjusted`, and the per-period EPS terms) never
divide by zero. -/
theorem trailing_result_shares_truthy (l : List Statement) (prices : List PricePoint)
    (r : ValuationMetrics) (h : calculateTrailingStatistics l prices = .ok (some r)) :
    truthyO r.sharesOutstanding = true ∧ truthyO r.dilutedSharesOutstanding = true ∧
    r.sharesOutstanding ≠ some (JsNum.num 0) ∧
    r.dilutedSharesOutstanding ≠ some (JsNum.num 0) := by
  unfold calculateTrailingStatistics at h
  by_cases h4 : l.length < 4
  · rw [if_pos h4] at h
    simp at h
  · rw [if_neg h4] at h
    cases hlast : (takeRight 4 (sortByDate l)).getLast? with
    | none =>
      simp only [hlast] at h
      simp at h
    | some lastS =>
      cases hg : truthyO (nullishOr lastS.basicAverageShares lastS.ordinarySharesNumber) with
      | false =>
        simp only [hlast, hg, Bool.not_false, if_pos] at h
        exact Except.noConfusion h
      | true =>
        simp only [hlast, hg, Bool.not_true] at h
        rw [if_neg (by simp : ¬ (false = true))] at h
        cases hp : priceOn lastS.date prices with
        | error e =>
          simp only [hp] at h
          exact Except.noConfusion h
        | ok cl =>
          simp only [hp] at h
          injection h with h1
          injection h1 with h2
          subst h2
          refine ⟨?_, ?_, ?_, ?_⟩
          · simpa [calculateValuationMetrics] using hg
          · simp only [calculateValuationMetrics]
            exact truthyO_jsOr_of_right _ _ hg
          · simp only [calculateValuationMetrics]
            exact truthyO_ne_zero _ hg
          · simp only [calculateValuationMetrics]
            exact truthyO_ne_zero _ (truthyO_jsOr_of_right _ _ hg)

/-- Witness for C10 at a concrete 4-statement series producing a record. -/
theorem trailing_result_shares_truthy_witness :
    truthyO (calculateValuationMetrics
      { date := 4, close := some (JsNum.num 20),
        sharesOutstanding := some (JsNum.num 1000),
        dilutedSharesOutstanding := some (JsNum.num 1000),
        netIncome := none, freeCashFlow := none, stockBasedCompensation := none,
        eps := some (JsNum.num 0), totalCash := none, totalDebt := none,
        totalRevenue := none, operatingIncome := none }).sharesOutstanding = true ∧
    truthyO (calculateValuationMetrics
      { date := 4, close := some (JsNum.num 20),
        sharesOutstanding := some (JsNum.num 1000),
        dilutedSharesOutstanding := some (JsNum.num 1000),
        netIncome := none, freeCashFlow := none, stockBasedCompensation := none,
        eps := some (JsNum.num 0), totalCash := none, totalDebt := none,
        totalRevenue := none, operatingIncome := none }).dilutedSharesOutstanding = true ∧
    (calculateValuationMetrics
      { date := 4, close := some (JsNum.num 20),
        sharesOutstanding := some (JsNum.num 1000),
        dilutedSharesOutstanding := some (JsNum.num 1000),
        netIncome := none, freeCashFlow := none, stockBasedCompensation := none,
        eps := some (JsNum.num 0), totalCash := none, totalDebt := none,
        totalRevenue := none, operatingIncome := none }).sharesOutstanding ≠
      some (JsNum.num 0) ∧
    (calculateValuationMetrics
      { date := 4, close := some (JsNum.num 20),
        sharesOutstanding := some (JsNum.num 1000),
        dilutedSharesOutstanding := some (JsNum.num 1000),
        netIncome := none, freeCashFlow := none, stockBasedCompensation := none,
        eps := some (JsNum.num 0), totalCash := none, totalDebt := none,
        totalRevenue := none, operatingIncome := none }).dilutedSharesOutstanding ≠
      some (JsNum.num 0) := by
  refine trailing_result_shares_truthy
    [mkStatement 1, mkStatement 2, mkStatement 3,
      { mkStatement 4 with basicAverageShares := some (JsNum.num 1000) }]
    [⟨1, 20⟩] _ ?_
  norm_num [calculateTrailingStatistics, sortByDate, takeRight, mkStatement, dateLE,
    nullishOr, truthyO, JsNum.truthy, priceOn, minByDate, latestOnOrBefore, lodashSum,
    jsOr, toJs, calculateValuationMetrics, JsNum.add, JsNum.div, JsNum.mul]
